import Mathlib

/-!
Verification of the image-to-document pipeline of `src/img2pdf.py`.

The development shallowly embeds the three core functions of the source,
`extract_text_from_jpeg`, `jpeg_to_pdf_with_text` and `batch_jpeg_to_pdf`:

* images are abstract values of a type `α` with decidable equality; the OCR
  engine collaborator (`pytesseract.image_to_string`) is a function
  `α → String → Option String`, where `none` models an engine call that
  raises (the bare `except: continue` at lines 77-78);
* Python's `str.strip()` is `pyStrip`; the candidate-selection loop of
  lines 68-78 is a left fold of `ocrStep` over the fixed 2×7 grid;
* the reportlab canvas is modeled as the ordered list of finished pages,
  with the text-object cursor bookkeeping of lines 121-142 embedded as
  `flowStep`/`flowRun` (coordinates in tenths of a point, so the default
  12 pt leading 14.4 becomes the integer 144, letter height 792 becomes
  7920, the 50-unit margins become 500);
* a source file carries two flags, whether the path exists
  (`os.path.exists`, line 88) and whether the bytes decode as an image
  (`Image.open`); renderer-level draw and save failures are modeled as
  boolean outcomes supplied per run.
-/

/-- Python's `str.strip()` used at lines 73-74: remove leading and trailing
whitespace. Embedded on the character list of the string. -/
def pyStrip (s : String) : String :=
  ⟨((s.data.dropWhile Char.isWhitespace).reverse.dropWhile Char.isWhitespace).reverse⟩

theorem dropWhile_self (p : Char → Bool) :
    ∀ l : List Char, (l.dropWhile p).dropWhile p = l.dropWhile p := by
  intro l
  induction l with
  | nil => rfl
  | cons a t ih =>
    by_cases h : p a
    · simpa [List.dropWhile_cons, h] using ih
    · simp [List.dropWhile_cons, h]

theorem dropWhile_head_false (p : Char → Bool) :
    ∀ (l : List Char) (a : Char) (t : List Char),
      l.dropWhile p = a :: t → p a = false := by
  intro l
  induction l with
  | nil => intro a t h; simp [List.dropWhile] at h
  | cons x xs ih =>
    intro a t h
    by_cases hx : p x
    · exact ih a t (by simpa [List.dropWhile_cons, hx] using h)
    · rw [List.dropWhile_cons, if_neg (by simpa using hx)] at h
      cases h
      simpa using hx

/-- Removing trailing whitespace of a character list. -/
def stripEnd (p : Char → Bool) (l : List Char) : List Char :=
  (l.reverse.dropWhile p).reverse

theorem stripEnd_stripEnd (p : Char → Bool) (l : List Char) :
    stripEnd p (stripEnd p l) = stripEnd p l := by
  unfold stripEnd
  rw [List.reverse_reverse, dropWhile_self]

theorem stripEnd_dropWhile (p : Char → Bool) (l : List Char)
    (hl : l.dropWhile p = l) : (stripEnd p l).dropWhile p = stripEnd p l := by
  cases hcase : l with
  | nil => simp [stripEnd]
  | cons a t =>
    have ha : p a = false := dropWhile_head_false p l a t (by rw [hl, hcase])
    unfold stripEnd
    rw [List.reverse_cons, List.dropWhile_append]
    by_cases he : (t.reverse.dropWhile p).isEmpty = true
    · rw [if_pos he]
      simp [List.dropWhile_cons, ha]
    · rw [if_neg he]
      rw [List.reverse_append]
      simp [List.dropWhile_cons, ha]

theorem pyStrip_idem (s : String) : pyStrip (pyStrip s) = pyStrip s := by
  unfold pyStrip
  have hdata : (⟨stripEnd Char.isWhitespace (s.data.dropWhile Char.isWhitespace)⟩ : String).data
      = stripEnd Char.isWhitespace (s.data.dropWhile Char.isWhitespace) := rfl
  have hleft : (stripEnd Char.isWhitespace (s.data.dropWhile Char.isWhitespace)).dropWhile
      Char.isWhitespace = stripEnd Char.isWhitespace (s.data.dropWhile Char.isWhitespace) :=
    stripEnd_dropWhile Char.isWhitespace _ (dropWhile_self Char.isWhitespace s.data)
  show (⟨stripEnd Char.isWhitespace ((⟨stripEnd Char.isWhitespace
      (s.data.dropWhile Char.isWhitespace)⟩ : String).data.dropWhile Char.isWhitespace)⟩ : String)
      = ⟨stripEnd Char.isWhitespace (s.data.dropWhile Char.isWhitespace)⟩
  rw [hdata, hleft, stripEnd_stripEnd]

/-- The seven tesseract configurations of lines 58-66, in source order:
uniform block, fully automatic, single column, single text line, single
word, sparse text, sparse text with OSD. -/
def tesseractConfigs : List String :=
  ["--oem 1 --psm 6", "--oem 1 --psm 3", "--oem 1 --psm 4", "--oem 1 --psm 7",
   "--oem 1 --psm 8", "--oem 1 --psm 11", "--oem 1 --psm 12"]

/-- `images_to_try = [image, binary_image]` of line 57: the enhanced variant
first, then the binary variant. -/
def imagesToTry {α : Type} (enhancedImage binaryImage : α) : List α :=
  [enhancedImage, binaryImage]

/-- The 14 (variant, config) evaluations of the nested loop at lines 69-70,
in evaluation order: variants outer, configs inner. -/
def searchGrid {α : Type} (enhancedImage binaryImage : α) : List (α × String) :=
  (imagesToTry enhancedImage binaryImage).flatMap fun img =>
    tesseractConfigs.map fun cfg => (img, cfg)

/-- The provenance label of line 75:
`img_type = "binary" if img == binary_image else "enhanced"`. -/
def imgLabel {α : Type} [DecidableEq α] (binaryImage img : α) : String :=
  if img = binaryImage then "binary" else "enhanced"

/-- One iteration of the selection loop body at lines 71-78. The running
state is the pair of `best_text` and the provenance last reported by the
diagnostic print of line 76 (`none` when no candidate has ever replaced the
initial empty best). A failing engine call (`except: continue`) leaves the
state unchanged; a successful call replaces the state exactly when
`len(text.strip()) > len(best_text)` (line 73), storing the stripped text
(line 74). -/
def ocrStep {α : Type} [DecidableEq α] (ocr : α → String → Option String)
    (binaryImage : α) (st : String × Option (String × String))
    (img : α) (cfg : String) : String × Option (String × String) :=
  match ocr img cfg with
  | none => st
  | some text =>
    if (pyStrip text).length > st.1.length then
      (pyStrip text, some (imgLabel binaryImage img, cfg))
    else st

/-- The folding function of the grid search (uncurried `ocrStep`). -/
def searchFold {α : Type} [DecidableEq α] (ocr : α → String → Option String)
    (binaryImage : α) (st : String × Option (String × String))
    (p : α × String) : String × Option (String × String) :=
  ocrStep ocr binaryImage st p.1 p.2

/-- The whole candidate search of lines 56-80: fold the loop body over the
14-element grid starting from `best_text = ""`. Returns the final best text
together with the last-reported provenance. -/
def searchBest {α : Type} [DecidableEq α] (ocr : α → String → Option String)
    (enhancedImage binaryImage : α) : String × Option (String × String) :=
  (searchGrid enhancedImage binaryImage).foldl (searchFold ocr binaryImage) ("", none)

theorem searchFold_eq {α : Type} [DecidableEq α] (ocr : α → String → Option String)
    (binaryImage : α) (st : String × Option (String × String)) (p : α × String) :
    searchFold ocr binaryImage st p = ocrStep ocr binaryImage st p.1 p.2 := rfl

theorem ocrStep_none {α : Type} [DecidableEq α] (ocr : α → String → Option String)
    (binaryImage : α) (st : String × Option (String × String)) (img : α) (cfg : String)
    (h : ocr img cfg = none) : ocrStep ocr binaryImage st img cfg = st := by
  unfold ocrStep
  rw [h]

theorem ocrStep_some {α : Type} [DecidableEq α] (ocr : α → String → Option String)
    (binaryImage : α) (st : String × Option (String × String)) (img : α) (cfg t : String)
    (h : ocr img cfg = some t) :
    ocrStep ocr binaryImage st img cfg
      = if (pyStrip t).length > st.1.length then
          (pyStrip t, some (imgLabel binaryImage img, cfg))
        else st := by
  unfold ocrStep
  rw [h]

theorem foldl_keep {α : Type} [DecidableEq α] (ocr : α → String → Option String)
    (binaryImage : α) :
    ∀ (l : List (α × String)) (st : String × Option (String × String)),
      (∀ p ∈ l, ∀ u, ocr p.1 p.2 = some u → (pyStrip u).length ≤ st.1.length) →
      l.foldl (searchFold ocr binaryImage) st = st := by
  intro l
  induction l with
  | nil => intro st _; rfl
  | cons p rest ih =>
    intro st h
    rw [List.foldl_cons, searchFold_eq]
    have hstep : ocrStep ocr binaryImage st p.1 p.2 = st := by
      cases hocr : ocr p.1 p.2 with
      | none => exact ocrStep_none ocr binaryImage st p.1 p.2 hocr
      | some u =>
        rw [ocrStep_some ocr binaryImage st p.1 p.2 u hocr,
          if_neg (not_lt.mpr (h p (List.mem_cons_self p rest) u hocr))]
    rw [hstep]
    exact ih st fun q hq => h q (List.mem_cons_of_mem p hq)

theorem foldl_lt {α : Type} [DecidableEq α] (ocr : α → String → Option String)
    (binaryImage : α) (L : Nat) :
    ∀ (l : List (α × String)) (st : String × Option (String × String)),
      st.1.length < L →
      (∀ p ∈ l, ∀ u, ocr p.1 p.2 = some u → (pyStrip u).length < L) →
      (l.foldl (searchFold ocr binaryImage) st).1.length < L := by
  intro l
  induction l with
  | nil => intro st hst _; exact hst
  | cons p rest ih =>
    intro st hst h
    rw [List.foldl_cons, searchFold_eq]
    have hrest : ∀ q ∈ rest, ∀ u, ocr q.1 q.2 = some u → (pyStrip u).length < L :=
      fun q hq => h q (List.mem_cons_of_mem p hq)
    cases hocr : ocr p.1 p.2 with
    | none =>
      rw [ocrStep_none ocr binaryImage st p.1 p.2 hocr]
      exact ih st hst hrest
    | some u =>
      rw [ocrStep_some ocr binaryImage st p.1 p.2 u hocr]
      by_cases hc : (pyStrip u).length > st.1.length
      · rw [if_pos hc]
        exact ih _ (h p (List.mem_cons_self p rest) u hocr) hrest
      · rw [if_neg hc]
        exact ih st hst hrest

theorem foldl_stripped {α : Type} [DecidableEq α] (ocr : α → String → Option String)
    (binaryImage : α) :
    ∀ (l : List (α × String)) (st : String × Option (String × String)),
      pyStrip st.1 = st.1 →
      pyStrip (l.foldl (searchFold ocr binaryImage) st).1
        = (l.foldl (searchFold ocr binaryImage) st).1 := by
  intro l
  induction l with
  | nil => intro st hst; exact hst
  | cons p rest ih =>
    intro st hst
    rw [List.foldl_cons, searchFold_eq]
    cases hocr : ocr p.1 p.2 with
    | none =>
      rw [ocrStep_none ocr binaryImage st p.1 p.2 hocr]
      exact ih st hst
    | some u =>
      rw [ocrStep_some ocr binaryImage st p.1 p.2 u hocr]
      by_cases hc : (pyStrip u).length > st.1.length
      · rw [if_pos hc]
        exact ih _ (pyStrip_idem u)
      · rw [if_neg hc]
        exact ih st hst

theorem searchBest_stripped {α : Type} [DecidableEq α] (ocr : α → String → Option String)
    (enhancedImage binaryImage : α) :
    pyStrip (searchBest ocr enhancedImage binaryImage).1
      = (searchBest ocr enhancedImage binaryImage).1 :=
  foldl_stripped ocr binaryImage _ ("", none) rfl

/-- Fixed header line written at line 129. -/
def headerLine : String := "EXTRACTED TEXT:"

/-- Fixed placeholder line written at line 148 when no text was extracted. -/
def placeholderLine : String := "No text was detected in the image."

/-- Helper for `pySplitLines`: the accumulator holds the characters of the
current piece in reverse. -/
def splitLinesAux : List Char → List Char → List String
  | [], acc => [⟨acc.reverse⟩]
  | c :: rest, acc =>
    if c = '\n' then ⟨acc.reverse⟩ :: splitLinesAux rest []
    else splitLinesAux rest (c :: acc)

/-- Python's `extracted_text.split('\n')` of line 133: split at every
newline character; a string of k newlines yields k+1 pieces. -/
def pySplitLines (s : String) : List String := splitLinesAux s.data []

/-- State of the text layout loop of lines 121-142: the finished text pages
(each the list of lines drawn on it), the lines of the current text object,
and the current cursor height `text_object.getY()`. Coordinates are in
tenths of a point. -/
structure FlowState where
  pages : List (List String)
  cur : List String
  y : Int
deriving DecidableEq, Repr

/-- One iteration of the `for line in lines` loop at lines 134-140: if the
cursor is below the bottom margin, flush the current text object, start a
new page with the cursor reset to the start height, and write the
triggering line there; otherwise write the line on the current page and
move the cursor down one leading. -/
def flowStep (startY margin leading : Int) (st : FlowState) (line : String) : FlowState :=
  if st.y < margin then
    ⟨st.pages ++ [st.cur], [line], startY - leading⟩
  else
    ⟨st.pages, st.cur ++ [line], st.y - leading⟩

/-- The state after lines 123-130: a fresh text object at the start height
holding the header line and the blank line, each of which moved the cursor
down one leading. -/
def flowInit (startY leading : Int) : FlowState :=
  ⟨[], [headerLine, ""], startY - 2 * leading⟩

/-- Folding the layout loop over the extracted lines. -/
def flowRun (startY margin leading : Int) (lines : List String) : FlowState :=
  lines.foldl (flowStep startY margin leading) (flowInit startY leading)

/-- All text pages the loop produces: the flushed pages plus the final
text object drawn at line 142 and flushed by `c.save()`. -/
def textPages (startY margin leading : Int) (lines : List String) : List (List String) :=
  (flowRun startY margin leading lines).pages ++ [(flowRun startY margin leading lines).cur]

/-- Cursor start height `height - 50` of lines 124 and 138, in tenths of a
point (letter height is 792 pt). -/
def pageStartY : Int := 7420

/-- The 50 pt bottom margin of the check at line 135, in tenths of a point. -/
def bottomMarginY : Int := 500

/-- Default reportlab leading for the 12 pt font set at lines 126 and 139:
1.2 times the size, 14.4 pt, in tenths of a point. -/
def fontLeading : Int := 144

/-- The number of lines that fit on a fresh text page: line k (counting
from 0) is written while `startY - k * leading` is at least the margin. -/
def lineCap (startY margin leading : Int) : Nat :=
  ((startY - margin) / leading).toNat + 1

theorem flow_cond (startY margin leading : Int) (hl : 0 < leading) (hm : margin ≤ startY)
    (k : Nat) :
    startY - (k : Int) * leading < margin ↔ lineCap startY margin leading ≤ k := by
  unfold lineCap
  have h0 : 0 ≤ (startY - margin) / leading := Int.ediv_nonneg (by omega) (le_of_lt hl)
  constructor
  · intro h
    have h2 : startY - margin < (k : Int) * leading := by linarith
    have h3 : (startY - margin) / leading < (k : Int) :=
      (Int.ediv_lt_iff_lt_mul hl).mpr h2
    omega
  · intro h
    have h3 : (startY - margin) / leading < (k : Int) := by omega
    have h2 : startY - margin < (k : Int) * leading :=
      (Int.ediv_lt_iff_lt_mul hl).mp h3
    linarith

theorem flow_invariant (startY margin leading : Int) (hl : 0 < leading)
    (hm : margin ≤ startY) :
    ∀ (lines : List String) (st : FlowState),
      st.y = startY - (st.cur.length : Int) * leading →
      1 ≤ st.cur.length →
      st.cur.length ≤ lineCap startY margin leading →
      ((lines.foldl (flowStep startY margin leading) st).y
          = startY - ((lines.foldl (flowStep startY margin leading) st).cur.length : Int) * leading
        ∧ 1 ≤ (lines.foldl (flowStep startY margin leading) st).cur.length
        ∧ (lines.foldl (flowStep startY margin leading) st).cur.length
            ≤ lineCap startY margin leading
        ∧ (lines.foldl (flowStep startY margin leading) st).pages.length
              * lineCap startY margin leading
            + (lines.foldl (flowStep startY margin leading) st).cur.length
          = st.pages.length * lineCap startY margin leading + st.cur.length + lines.length) := by
  intro lines
  induction lines with
  | nil => intro st h1 h2 h3; exact ⟨h1, h2, h3, by simp⟩
  | cons a rest ih =>
    intro st h1 h2 h3
    rw [List.foldl_cons]
    by_cases hcond : st.y < margin
    · have hk : lineCap startY margin leading ≤ st.cur.length :=
        (flow_cond startY margin leading hl hm st.cur.length).mp (by rw [← h1]; exact hcond)
      have hkeq : st.cur.length = lineCap startY margin leading := le_antisymm h3 hk
      have hstep : flowStep startY margin leading st a
          = ⟨st.pages ++ [st.cur], [a], startY - leading⟩ := by
        unfold flowStep
        rw [if_pos hcond]
      rw [hstep]
      obtain ⟨i1, i2, i3, i4⟩ := ih ⟨st.pages ++ [st.cur], [a], startY - leading⟩
        (by simp) (by simp) (by simp [lineCap])
      refine ⟨i1, i2, i3, ?_⟩
      rw [i4]
      simp only [List.length_append, List.length_singleton, List.length_cons,
        List.length_nil, hkeq]
      ring
    · have hk : st.cur.length < lineCap startY margin leading := by
        by_contra hge
        apply hcond
        rw [h1]
        exact (flow_cond startY margin leading hl hm st.cur.length).mpr
          (Nat.le_of_not_lt hge)
      have hstep : flowStep startY margin leading st a
          = ⟨st.pages, st.cur ++ [a], st.y - leading⟩ := by
        unfold flowStep
        rw [if_neg hcond]
      rw [hstep]
      obtain ⟨i1, i2, i3, i4⟩ := ih ⟨st.pages, st.cur ++ [a], st.y - leading⟩
        (by simp only [List.length_append, List.length_singleton]
            rw [h1]
            push_cast
            ring)
        (by simp)
        (by simp only [List.length_append, List.length_singleton]; omega)
      refine ⟨i1, i2, i3, ?_⟩
      rw [i4]
      simp only [List.length_append, List.length_singleton, List.length_cons,
        List.length_nil]
      ring

theorem ceil_div_helper (p k r c : Nat) (hk1 : 1 ≤ k) (hk2 : k ≤ c)
    (hpk : p * c + k = 2 + r) : p + 1 = (r + 2 + c - 1) / c := by
  have hc : 0 < c := lt_of_lt_of_le hk1 hk2
  have hsplit : r + 2 + c - 1 = k - 1 + c + p * c := by
    generalize hq : p * c = q at hpk ⊢
    omega
  rw [hsplit, Nat.add_mul_div_right _ _ hc, Nat.add_div_right _ hc,
    Nat.div_eq_of_lt (by omega)]
  omega

theorem textPages_count (startY margin leading : Int) (hl : 0 < leading)
    (hm : margin ≤ startY) (hcap : 2 ≤ lineCap startY margin leading)
    (lines : List String) :
    (textPages startY margin leading lines).length
      = (lines.length + 2 + lineCap startY margin leading - 1)
          / lineCap startY margin leading := by
  obtain ⟨i1, i2, i3, i4⟩ := flow_invariant startY margin leading hl hm lines
    (flowInit startY leading)
    (by simp [flowInit])
    (by simp [flowInit])
    (by simpa [flowInit] using hcap)
  have hlen : (textPages startY margin leading lines).length
      = (flowRun startY margin leading lines).pages.length + 1 := by
    simp [textPages]
  rw [hlen]
  have hM : (flowRun startY margin leading lines).pages.length
        * lineCap startY margin leading
      + (flowRun startY margin leading lines).cur.length
      = 2 + lines.length := by
    simpa [flowRun, flowInit] using i4
  exact ceil_div_helper _ _ _ _ i2 i3 hM

theorem flow_join (startY margin leading : Int) :
    ∀ (lines : List String) (st : FlowState),
      (lines.foldl (flowStep startY margin leading) st).pages.flatten
          ++ (lines.foldl (flowStep startY margin leading) st).cur
        = st.pages.flatten ++ st.cur ++ lines := by
  intro lines
  induction lines with
  | nil => intro st; simp
  | cons a rest ih =>
    intro st
    rw [List.foldl_cons]
    by_cases hcond : st.y < margin
    · rw [show flowStep startY margin leading st a
          = ⟨st.pages ++ [st.cur], [a], startY - leading⟩ from by
            unfold flowStep; rw [if_pos hcond]]
      rw [ih]
      simp
    · rw [show flowStep startY margin leading st a
          = ⟨st.pages, st.cur ++ [a], st.y - leading⟩ from by
            unfold flowStep; rw [if_neg hcond]]
      rw [ih]
      simp

theorem textPages_flatten (startY margin leading : Int) (lines : List String) :
    (textPages startY margin leading lines).flatten = headerLine :: "" :: lines := by
  unfold textPages flowRun
  rw [List.flatten_append]
  simp only [List.flatten_cons, List.flatten_nil, List.append_nil]
  rw [flow_join]
  simp [flowInit]

/-- A source file as the pipeline observes it: whether the path exists
(`os.path.exists`, line 88), whether its bytes decode as an image
(`Image.open` at lines 18 and 101 succeeds), and the two preprocessed
variants produced by lines 20-54 when it decodes. Preprocessing itself is
total, so no further failure mode exists once the image is loaded. -/
structure SourceFile (α : Type) where
  present : Bool
  decodes : Bool
  enhancedImg : α
  binaryImg : α
deriving DecidableEq, Repr

/-- `extract_text_from_jpeg` (lines 13-83): run the candidate search on the
two variants; the enclosing `try`/`except` at lines 15-83 turns any load or
decode failure into the empty string. -/
def extract_text_from_jpeg {α : Type} [DecidableEq α]
    (ocr : α → String → Option String) (f : SourceFile α) : String :=
  if f.present && f.decodes then
    (searchBest ocr f.enhancedImg f.binaryImg).1
  else ""

/-- One page of the produced document: whether an image was drawn on it,
and the text lines drawn on it in order. -/
structure Page where
  hasImage : Bool
  lines : List String
deriving DecidableEq, Repr

/-- Page assembly of `jpeg_to_pdf_with_text` (lines 94-151). The first page
gets the image exactly when the flag is set and both `Image.open` and
`drawImage` succeed (a failure inside the `try` at lines 100-115 is printed
and swallowed). `c.showPage()` at line 123 or 145 then finalizes that first
page, and the text pages follow: the paginated header/body flow for
non-empty text, or a single fixed placeholder line (line 148). -/
def assemblePages (extracted : String) (includeImage imageDrawn : Bool) : List Page :=
  let firstPage : Page := ⟨includeImage && imageDrawn, []⟩
  if extracted = "" then
    [firstPage, ⟨false, [placeholderLine]⟩]
  else
    firstPage ::
      (textPages pageStartY bottomMarginY fontLeading (pySplitLines extracted)).map
        fun ls => ⟨false, ls⟩

/-- `jpeg_to_pdf_with_text` (lines 86-152). A missing source raises
`FileNotFoundError` (lines 88-89). `drawOk` models success of the renderer
`drawImage` call, `saveOk` success of the final `c.save()` at line 151,
which is outside any handler and therefore propagates as
`Except.error`. On success the function returns the produced pages together
with the extracted text (line 152). -/
def jpeg_to_pdf_with_text {α : Type} [DecidableEq α]
    (ocr : α → String → Option String) (f : SourceFile α)
    (includeImage drawOk saveOk : Bool) : Except String (List Page × String) :=
  if f.present then
    let text := extract_text_from_jpeg ocr f
    let pages := assemblePages text includeImage (f.decodes && drawOk)
    if saveOk then Except.ok (pages, text)
    else Except.error "cannot write destination"
  else Except.error "JPEG file not found"

/-- Outcome recorded per file by the batch loop (lines 170-179). -/
inductive Outcome
  | success (pdfPath text : String)
  | failure (err : String)
deriving DecidableEq, Repr

def Outcome.isFailure : Outcome → Bool
  | Outcome.failure _ => true
  | Outcome.success _ _ => false

/-- Python's `str.lower()`, character by character. -/
def pyLower (s : String) : String := ⟨s.data.map Char.toLower⟩

/-- Python's `str.endswith(suffix)` on the character lists. -/
def pyEndsWith (s suffixStr : String) : Bool :=
  suffixStr.data.isSuffixOf s.data

/-- The suffix filter of line 163:
`filename.lower().endswith(('.jpg', '.jpeg'))`. -/
def isJpegName (s : String) : Bool :=
  pyEndsWith (pyLower s) ".jpg" || pyEndsWith (pyLower s) ".jpeg"

/-- `os.path.splitext(filename)[0]` of line 165: the filename up to its
last dot, except that a filename consisting of leading dots followed by no
other dot is returned whole. -/
def splitextStem (s : String) : String :=
  let cs := s.data
  if cs.count '.' = 0 then s
  else
    let keep := cs.length - 1 - (cs.reverse.indexOf '.')
    if (cs.take keep).any (fun c => c ≠ '.') then ⟨cs.take keep⟩ else s

/-- `os.path.join` of lines 164 and 166, with a fixed separator. -/
def pathJoin (folder filename : String) : String := folder ++ "/" ++ filename

/-- A directory entry as the batch loop observes it: the filename, the
file, and the renderer outcomes for this file's run. -/
structure DirEntry (α : Type) where
  name : String
  file : SourceFile α
  drawOk : Bool
  saveOk : Bool
deriving DecidableEq, Repr

/-- The per-entry body of the batch loop (lines 162-179): skip names that
fail the suffix filter, otherwise run the single-file pipeline and record
either a success with the output path and text, or the raised error. -/
def batchEntry {α : Type} [DecidableEq α] (ocr : α → String → Option String)
    (outputFolder : String) (e : DirEntry α) : Option (String × Outcome) :=
  if isJpegName e.name then
    some (e.name,
      match jpeg_to_pdf_with_text ocr e.file true e.drawOk e.saveOk with
      | Except.ok (_, text) =>
          Outcome.success (pathJoin outputFolder (splitextStem e.name ++ ".pdf")) text
      | Except.error msg => Outcome.failure msg)
  else none

/-- `batch_jpeg_to_pdf` (lines 155-181): process every listed entry
independently and collect the filename-to-outcome mapping. -/
def batch_jpeg_to_pdf {α : Type} [DecidableEq α] (ocr : α → String → Option String)
    (outputFolder : String) (dir : List (DirEntry α)) : List (String × Outcome) :=
  dir.filterMap (batchEntry ocr outputFolder)

/-- The best text of a finished single-file run, `none` when it raised. -/
def resultText : Except String (List Page × String) → Option String
  | Except.ok (_, text) => some text
  | Except.error _ => none

/-- The page count of a finished single-file run, `none` when it raised. -/
def resultPageCount : Except String (List Page × String) → Option Nat
  | Except.ok (pages, _) => some pages.length
  | Except.error _ => none

theorem extract_stripped {α : Type} [DecidableEq α] (ocr : α → String → Option String)
    (f : SourceFile α) :
    pyStrip (extract_text_from_jpeg ocr f) = extract_text_from_jpeg ocr f := by
  unfold extract_text_from_jpeg
  by_cases hp : (f.present && f.decodes) = true
  · rw [if_pos hp]
    exact searchBest_stripped ocr f.enhancedImg f.binaryImg
  · rw [if_neg hp]
    rfl

/-- An OCR engine over `Bool`-valued images whose every call raises. -/
def noOcr : Bool → String → Option String := fun _ _ => none

/-- An OCR engine over `Bool`-valued images that always recognizes the same
text. -/
def demoOcr : Bool → String → Option String := fun _ _ => some "Sample text"

/-- An OCR engine that recognizes text only for the binary variant under
the single-line config `--psm 7`, and raises otherwise. -/
def winOcr : Bool → String → Option String := fun img cfg =>
  if img then (if cfg = "--oem 1 --psm 7" then some " winner text " else none)
  else none

/-- A present, decodable file over `Bool` images (`false` standing for the
enhanced variant, `true` for the binary variant). -/
def validFileA : SourceFile Bool := ⟨true, true, false, true⟩

/-- A present file whose bytes do not decode as an image. -/
def corruptFile : SourceFile Bool := ⟨true, false, false, true⟩

/-- A listed file whose path does not exist at processing time. -/
def missingFile : SourceFile Bool := ⟨false, false, false, true⟩

/-- C1: over the fixed-order 14-evaluation grid (enhanced variant first,
then binary, each against the 7 configs in source order), the running best
is replaced by a new successful candidate if and only if the candidate's
trimmed length is strictly greater than the (trimmed) length of the current
best, and on equal trimmed lengths the earlier-evaluated candidate is
kept. The running best is invariantly trimmed, so comparing against
`len(best_text)` is comparing against its trimmed length. -/
theorem c1_selection_rule {α : Type} [DecidableEq α]
    (ocr : α → String → Option String) (e b : α) :
    (searchGrid e b).length = 14 ∧
    searchGrid e b
      = [(e, "--oem 1 --psm 6"), (e, "--oem 1 --psm 3"), (e, "--oem 1 --psm 4"),
         (e, "--oem 1 --psm 7"), (e, "--oem 1 --psm 8"), (e, "--oem 1 --psm 11"),
         (e, "--oem 1 --psm 12"),
         (b, "--oem 1 --psm 6"), (b, "--oem 1 --psm 3"), (b, "--oem 1 --psm 4"),
         (b, "--oem 1 --psm 7"), (b, "--oem 1 --psm 8"), (b, "--oem 1 --psm 11"),
         (b, "--oem 1 --psm 12")] ∧
    pyStrip (searchBest ocr e b).1 = (searchBest ocr e b).1 ∧
    (∀ (best : String) (prov : Option (String × String)) (img : α) (cfg t : String),
      pyStrip best = best → ocr img cfg = some t →
      ocrStep ocr b (best, prov) img cfg
        = if (pyStrip best).length < (pyStrip t).length then
            (pyStrip t, some (imgLabel b img, cfg))
          else (best, prov)) := by
  refine ⟨rfl, rfl, searchBest_stripped ocr e b, ?_⟩
  intro best prov img cfg t hb ht
  rw [ocrStep_some ocr b (best, prov) img cfg t ht, hb]

/-- C1 witness at a concrete engine, state and candidate. -/
theorem c1_selection_rule_witness :
    ocrStep demoOcr true ("", none) false "--oem 1 --psm 6"
      = if (pyStrip "").length < (pyStrip "Sample text").length then
          (pyStrip "Sample text", some (imgLabel true false, "--oem 1 --psm 6"))
        else ("", none) :=
  (c1_selection_rule demoOcr false true).2.2.2 "" none false "--oem 1 --psm 6"
    "Sample text" rfl rfl

/-- C6: a per-combination engine failure leaves the running state
unchanged, so the search continues with the remaining combinations, and an
engine that fails on all 14 combinations yields the empty string as best
text (with no provenance ever reported). -/
theorem c6_failures_skipped {α : Type} [DecidableEq α]
    (ocr : α → String → Option String) (e b : α) :
    (∀ (st : String × Option (String × String)) (img : α) (cfg : String),
      ocr img cfg = none → ocrStep ocr b st img cfg = st) ∧
    ((∀ img cfg, ocr img cfg = none) → searchBest ocr e b = ("", none)) := by
  constructor
  · intro st img cfg h
    exact ocrStep_none ocr b st img cfg h
  · intro hall
    unfold searchBest
    have hfold : ∀ (l : List (α × String)) (st : String × Option (String × String)),
        l.foldl (searchFold ocr b) st = st := by
      intro l
      induction l with
      | nil => intro st; rfl
      | cons p rest ih =>
        intro st
        rw [List.foldl_cons, searchFold_eq, ocrStep_none ocr b st p.1 p.2 (hall p.1 p.2)]
        exact ih st
    exact hfold _ _

/-- C6 witness: the all-failing engine on concrete variants. -/
theorem c6_failures_skipped_witness :
    ocrStep noOcr true ("", none) false "--oem 1 --psm 6" = ("", none) ∧
    searchBest noOcr false true = ("", none) :=
  ⟨(c6_failures_skipped noOcr false true).1 ("", none) false "--oem 1 --psm 6" rfl,
   (c6_failures_skipped noOcr false true).2 fun _ _ => rfl⟩

/-- C9: with the OCR engine a deterministic function, two runs of the
pipeline on the same image, flags and configs produce the identical best
text and the identical page count: the results depend only on the engine's
input-output behaviour. -/
theorem c9_deterministic {α : Type} [DecidableEq α]
    (ocrA ocrB : α → String → Option String) (f : SourceFile α)
    (includeImage drawOk saveOk : Bool)
    (h : ∀ img cfg, ocrA img cfg = ocrB img cfg) :
    extract_text_from_jpeg ocrA f = extract_text_from_jpeg ocrB f ∧
    resultText (jpeg_to_pdf_with_text ocrA f includeImage drawOk saveOk)
      = resultText (jpeg_to_pdf_with_text ocrB f includeImage drawOk saveOk) ∧
    resultPageCount (jpeg_to_pdf_with_text ocrA f includeImage drawOk saveOk)
      = resultPageCount (jpeg_to_pdf_with_text ocrB f includeImage drawOk saveOk) := by
  have heq : ocrA = ocrB := funext fun img => funext fun cfg => h img cfg
  rw [heq]
  exact ⟨rfl, rfl, rfl⟩

/-- C9 witness: two textually separate but extensionally equal engines. -/
theorem c9_deterministic_witness :
    extract_text_from_jpeg demoOcr validFileA
      = extract_text_from_jpeg (fun _ _ => some "Sample text") validFileA ∧
    resultText (jpeg_to_pdf_with_text demoOcr validFileA true true true)
      = resultText (jpeg_to_pdf_with_text (fun _ _ => some "Sample text") validFileA true true true) ∧
    resultPageCount (jpeg_to_pdf_with_text demoOcr validFileA true true true)
      = resultPageCount (jpeg_to_pdf_with_text (fun _ _ => some "Sample text") validFileA true true true) :=
  c9_deterministic demoOcr (fun _ _ => some "Sample text") validFileA true true true
    fun _ _ => rfl

/-- C10: the text the extraction step returns is a fixed point of
whitespace trimming (the running best is stored already stripped), and the
text returned by the single-file pipeline, being that same extraction
result, is a fixed point as well. -/
theorem c10_trim_fixed_point {α : Type} [DecidableEq α]
    (ocr : α → String → Option String) (e b : α) (f : SourceFile α)
    (includeImage drawOk saveOk : Bool) :
    pyStrip (searchBest ocr e b).1 = (searchBest ocr e b).1 ∧
    pyStrip (extract_text_from_jpeg ocr f) = extract_text_from_jpeg ocr f ∧
    (∀ (pages : List Page) (text : String),
      jpeg_to_pdf_with_text ocr f includeImage drawOk saveOk = Except.ok (pages, text) →
      pyStrip text = text) := by
  refine ⟨searchBest_stripped ocr e b, extract_stripped ocr f, ?_⟩
  intro pages text heq
  unfold jpeg_to_pdf_with_text at heq
  by_cases hp : f.present
  · rw [if_pos hp] at heq
    by_cases hs : saveOk
    · rw [if_pos hs] at heq
      have htext : extract_text_from_jpeg ocr f = text :=
        congrArg Prod.snd (Except.ok.inj heq)
      rw [← htext]
      exact extract_stripped ocr f
    · rw [if_neg hs] at heq
      exact absurd heq (by simp)
  · rw [if_neg hp] at heq
    exact absurd heq (by simp)

/-- C10 witness: the pipeline on a concrete valid file returns the text
"Sample text", which is indeed trim-fixed. -/
theorem c10_trim_fixed_point_witness : pyStrip "Sample text" = "Sample text" :=
  (c10_trim_fixed_point demoOcr false true validFileA true true true).2.2
    (assemblePages "Sample text" true true) "Sample text" rfl

/-- C7: when the best text is empty the Assembler emits exactly one fixed
placeholder line instead of the header and body, and with the image flag
set (and the image drawable) the resulting document has exactly 2 pages:
one image page followed by one placeholder-line text page. -/
theorem c7_placeholder {α : Type} [DecidableEq α]
    (ocr : α → String → Option String) (f : SourceFile α) :
    (∀ includeImage imageDrawn : Bool,
      assemblePages "" includeImage imageDrawn
        = [⟨includeImage && imageDrawn, []⟩, ⟨false, [placeholderLine]⟩]) ∧
    (f.present = true → f.decodes = true →
      extract_text_from_jpeg ocr f = "" →
      jpeg_to_pdf_with_text ocr f true true true
        = Except.ok ([⟨true, []⟩, ⟨false, [placeholderLine]⟩], "")) := by
  constructor
  · intro includeImage imageDrawn
    rfl
  · intro hp hd hempty
    unfold jpeg_to_pdf_with_text
    rw [hp]
    simp only [if_true]
    rw [hempty, hd]
    rfl

/-- C7 witness: a valid file on which every engine call fails yields the
exact 2-page placeholder document. -/
theorem c7_placeholder_witness :
    jpeg_to_pdf_with_text noOcr validFileA true true true
      = Except.ok ([⟨true, []⟩, ⟨false, [placeholderLine]⟩], "") :=
  (c7_placeholder noOcr validFileA).2 rfl rfl rfl

/-- C8: a failure while drawing the image is swallowed and the document is
produced without the image (the first page of every assembled document with
a failed draw carries no image), whereas a failure to write the destination
document is fatal and propagates to the caller as an error. -/
theorem c8_draw_vs_save {α : Type} [DecidableEq α]
    (ocr : α → String → Option String) (f : SourceFile α)
    (includeImage drawOk : Bool) :
    (f.present = true →
      jpeg_to_pdf_with_text ocr f includeImage false true
        = Except.ok (assemblePages (extract_text_from_jpeg ocr f) includeImage false,
            extract_text_from_jpeg ocr f)) ∧
    (∀ (t : String) (incl : Bool),
      (assemblePages t incl false).head? = some ⟨false, []⟩) ∧
    (f.present = true →
      jpeg_to_pdf_with_text ocr f includeImage drawOk false
        = Except.error "cannot write destination") := by
  refine ⟨?_, ?_, ?_⟩
  · intro hp
    unfold jpeg_to_pdf_with_text
    rw [hp]
    simp only [if_true, Bool.and_false]
  · intro t incl
    unfold assemblePages
    by_cases ht : t = ""
    · rw [if_pos ht]
      simp
    · rw [if_neg ht]
      simp
  · intro hp
    unfold jpeg_to_pdf_with_text
    rw [hp]
    simp only [if_true, Bool.false_eq_true, if_false]

/-- C8 witness: on a concrete valid file, a failed draw still yields a
document (without the image) while a failed save raises. -/
theorem c8_draw_vs_save_witness :
    jpeg_to_pdf_with_text demoOcr validFileA true false true
      = Except.ok (assemblePages (extract_text_from_jpeg demoOcr validFileA) true false,
          extract_text_from_jpeg demoOcr validFileA) ∧
    jpeg_to_pdf_with_text demoOcr validFileA true true false
      = Except.error "cannot write destination" :=
  ⟨(c8_draw_vs_save demoOcr validFileA true false).1 rfl,
   (c8_draw_vs_save demoOcr validFileA true true).2.2 rfl⟩

/-- C3 counterexample: a source file that exists but cannot be decoded does
not make the single-file pipeline fail; the run succeeds, returning the
empty text and an imageless placeholder document, even though the claim
requires a fatal decode error for every unloadable source. -/
theorem c3_counterexample :
    (jpeg_to_pdf_with_text noOcr corruptFile true true true).isOk = true ∧
    jpeg_to_pdf_with_text noOcr corruptFile true true true
      = Except.ok ([⟨false, []⟩, ⟨false, [placeholderLine]⟩], "") := by
  constructor
  · rfl
  · rfl

/-- C3 (amended): a missing source file makes the pipeline raise
`FileNotFoundError`, which the batch orchestrator records as a failure for
that file; an existing file whose bytes fail to decode is not fatal: the
broad handlers of lines 81-83 and 114-115 swallow the decode error, the
extraction returns the empty string, and the run succeeds with an imageless
placeholder document. Once the image is loaded, preprocessing (modeled
total) cannot fail. -/
theorem c3_decode_failures {α : Type} [DecidableEq α]
    (ocr : α → String → Option String) (f : SourceFile α)
    (includeImage drawOk saveOk : Bool) :
    (f.present = false →
      jpeg_to_pdf_with_text ocr f includeImage drawOk saveOk
        = Except.error "JPEG file not found") ∧
    (f.present = true → f.decodes = false → saveOk = true →
      jpeg_to_pdf_with_text ocr f includeImage drawOk saveOk
        = Except.ok ([⟨false, []⟩, ⟨false, [placeholderLine]⟩], "")) ∧
    (∀ (name outF : String) (dOk sOk : Bool),
      f.present = false → isJpegName name = true →
      batch_jpeg_to_pdf ocr outF [⟨name, f, dOk, sOk⟩]
        = [(name, Outcome.failure "JPEG file not found")]) := by
  refine ⟨?_, ?_, ?_⟩
  · intro hp
    unfold jpeg_to_pdf_with_text
    rw [hp]
    simp
  · intro hp hd hs
    unfold jpeg_to_pdf_with_text extract_text_from_jpeg assemblePages
    rw [hp, hd, hs]
    simp
  · intro name outF dOk sOk hp hj
    unfold batch_jpeg_to_pdf batchEntry
    rw [List.filterMap_cons]
    simp only [hj, if_true]
    unfold jpeg_to_pdf_with_text
    rw [hp]
    rfl

/-- C3 witness: the missing file raises and is recorded as a batch failure;
the corrupt-but-present file succeeds. -/
theorem c3_decode_failures_witness :
    jpeg_to_pdf_with_text noOcr missingFile true true true
      = Except.error "JPEG file not found" ∧
    jpeg_to_pdf_with_text noOcr corruptFile false true true
      = Except.ok ([⟨false, []⟩, ⟨false, [placeholderLine]⟩], "") ∧
    batch_jpeg_to_pdf noOcr "output" [⟨"bad.jpg", missingFile, true, true⟩]
      = [("bad.jpg", Outcome.failure "JPEG file not found")] :=
  ⟨(c3_decode_failures noOcr missingFile true true true).1 rfl,
   (c3_decode_failures noOcr corruptFile false true true).2.1 rfl rfl rfl,
   (c3_decode_failures noOcr missingFile true true true).2.2 "bad.jpg" "output"
     true true rfl (by decide)⟩

/-- A directory of three valid images and one corrupt (existing but
undecodable) file, every renderer call succeeding. -/
def demoDir : List (DirEntry Bool) :=
  [⟨"a.jpg", validFileA, true, true⟩, ⟨"b.jpg", validFileA, true, true⟩,
   ⟨"c.jpg", validFileA, true, true⟩, ⟨"d.jpg", corruptFile, true, true⟩]

set_option maxRecDepth 10000 in
/-- C5 counterexample: on a directory of 3 valid images plus 1 corrupt
file the outcome map has 4 entries but zero failures, not the claimed 3
successes and 1 failure: the corrupt file's decode error is swallowed and
it is recorded as a success with empty text. -/
theorem c5_counterexample :
    (batch_jpeg_to_pdf demoOcr "output" demoDir).length = 4 ∧
    (batch_jpeg_to_pdf demoOcr "output" demoDir).countP
      (fun r => Outcome.isFailure r.2) = 0 ∧
    ¬ (batch_jpeg_to_pdf demoOcr "output" demoDir).countP
      (fun r => Outcome.isFailure r.2) = 1 := by
  refine ⟨by decide, by decide, by decide⟩

/-- C5 (amended): batch processing is per-file independent (splitting the
directory splits the outcome map), the map carries exactly one entry per
matched file, in listing order, once every file has been attempted, and a
single file is recorded as a failure exactly when its processing raises:
when the file is missing at processing time or the destination write
fails. A corrupt (existing but undecodable) file is recorded as a success
with empty text, so 3 valid images plus 1 corrupt file yield 4 successes a
nd no failure. One file's outcome never affects another entry. -/
theorem c5_batch {α : Type} [DecidableEq α] (ocr : α → String → Option String)
    (outF : String) (d1 d2 : List (DirEntry α)) (e : DirEntry α) :
    (batch_jpeg_to_pdf ocr outF (d1 ++ d2)
      = batch_jpeg_to_pdf ocr outF d1 ++ batch_jpeg_to_pdf ocr outF d2) ∧
    ((batch_jpeg_to_pdf ocr outF d1).map Prod.fst
      = (d1.filter fun x => isJpegName x.name).map DirEntry.name) ∧
    (isJpegName e.name = true → e.file.present = false →
      batch_jpeg_to_pdf ocr outF [e]
        = [(e.name, Outcome.failure "JPEG file not found")]) ∧
    (isJpegName e.name = true → e.file.present = true → e.saveOk = false →
      batch_jpeg_to_pdf ocr outF [e]
        = [(e.name, Outcome.failure "cannot write destination")]) ∧
    (isJpegName e.name = true → e.file.present = true → e.saveOk = true →
      batch_jpeg_to_pdf ocr outF [e]
        = [(e.name, Outcome.success (pathJoin outF (splitextStem e.name ++ ".pdf"))
            (extract_text_from_jpeg ocr e.file))]) := by
  refine ⟨List.filterMap_append d1 d2 _, ?_, ?_, ?_, ?_⟩
  · induction d1 with
    | nil => rfl
    | cons x xs ih =>
      by_cases hx : isJpegName x.name = true
      · simp only [batch_jpeg_to_pdf, batchEntry, List.filterMap_cons, hx, if_true,
          List.filter_cons, List.map_cons] at ih ⊢
        exact congrArg (x.name :: ·) ih
      · simp only [batch_jpeg_to_pdf, batchEntry, List.filterMap_cons, hx, if_false,
          List.filter_cons, Bool.false_eq_true] at ih ⊢
        exact ih
  · intro hj hp
    unfold batch_jpeg_to_pdf batchEntry jpeg_to_pdf_with_text
    rw [List.filterMap_cons, if_pos hj, hp]
    rfl
  · intro hj hp hs
    unfold batch_jpeg_to_pdf batchEntry jpeg_to_pdf_with_text
    rw [List.filterMap_cons, if_pos hj, hp, hs]
    rfl
  · intro hj hp hs
    unfold batch_jpeg_to_pdf batchEntry jpeg_to_pdf_with_text
    rw [List.filterMap_cons, if_pos hj, hp, hs]
    rfl

/-- C5 witness: the batch characterization applied to concrete
directories: an isolated missing-file failure, an isolated write failure,
an isolated success, splitting, and the complete key list of the demo
directory. -/
theorem c5_batch_witness :
    batch_jpeg_to_pdf noOcr "output"
        ([⟨"bad.jpg", missingFile, true, true⟩] ++ [⟨"ok.jpg", validFileA, true, true⟩])
      = batch_jpeg_to_pdf noOcr "output" [⟨"bad.jpg", missingFile, true, true⟩]
        ++ batch_jpeg_to_pdf noOcr "output" [⟨"ok.jpg", validFileA, true, true⟩] ∧
    (batch_jpeg_to_pdf noOcr "output" demoDir).map Prod.fst
      = (demoDir.filter fun x => isJpegName x.name).map DirEntry.name ∧
    batch_jpeg_to_pdf noOcr "output" [⟨"gone.jpg", missingFile, true, true⟩]
      = [("gone.jpg", Outcome.failure "JPEG file not found")] ∧
    batch_jpeg_to_pdf noOcr "output" [⟨"full.jpg", validFileA, true, false⟩]
      = [("full.jpg", Outcome.failure "cannot write destination")] ∧
    batch_jpeg_to_pdf noOcr "output" [⟨"ok.jpg", validFileA, true, true⟩]
      = [("ok.jpg", Outcome.success (pathJoin "output" (splitextStem "ok.jpg" ++ ".pdf"))
          (extract_text_from_jpeg noOcr validFileA))] :=
  ⟨(c5_batch noOcr "output" [⟨"bad.jpg", missingFile, true, true⟩]
      [⟨"ok.jpg", validFileA, true, true⟩] ⟨"ok.jpg", validFileA, true, true⟩).1,
   (c5_batch noOcr "output" demoDir [] ⟨"ok.jpg", validFileA, true, true⟩).2.1,
   (c5_batch noOcr "output" [] [] ⟨"gone.jpg", missingFile, true, true⟩).2.2.1
     (by decide) rfl,
   (c5_batch noOcr "output" [] [] ⟨"full.jpg", validFileA, true, false⟩).2.2.2.1
     (by decide) rfl rfl,
   (c5_batch noOcr "output" [] [] ⟨"ok.jpg", validFileA, true, true⟩).2.2.2.2
     (by decide) rfl rfl⟩

set_option maxRecDepth 10000 in
/-- C2 counterexample: with the source geometry (start height 742 pt,
bottom margin 50 pt, leading 14.4 pt, here in tenths of a point) a fresh
text page holds 49 lines, and `floor(S/H)` is 48 for the usable span
S = 742 - 50 between the start height and the margin. For an extracted
text of N = 48 lines the Assembler emits 2 text pages, while the claimed
`ceil(N / floor(S/H))` is 1 whether `floor(S/H)` is read as 48 or as the
page capacity 49: the claim's formula ignores the header and blank lines
emitted before the body. -/
theorem c2_counterexample :
    (textPages pageStartY bottomMarginY fontLeading (List.replicate 48 "x")).length = 2 ∧
    lineCap pageStartY bottomMarginY fontLeading = 49 ∧
    ((pageStartY - bottomMarginY) / fontLeading).toNat = 48 ∧
    (48 + 48 - 1) / 48 = 1 ∧
    (48 + 49 - 1) / 49 = 1 ∧
    ¬ (textPages pageStartY bottomMarginY fontLeading (List.replicate 48 "x")).length
        = (48 + 48 - 1) / 48 ∧
    ¬ (textPages pageStartY bottomMarginY fontLeading (List.replicate 48 "x")).length
        = (48 + 49 - 1) / 49 := by
  refine ⟨by decide, by decide, by decide, by decide, by decide, by decide, by decide⟩

/-- C2 (amended): for an extracted text of N lines laid out with start
height `startY`, bottom margin `margin` and line height `leading`, the
Assembler emits exactly `ceil((N + 2) / C)` text pages, where
`C = floor((startY - margin) / leading) + 1` is the number of lines a
fresh text page holds and the `+ 2` accounts for the header line and blank
line emitted before the body; it never drops, splits, merges or reorders a
line (the concatenation of the emitted pages is exactly the header, the
blank line, then the N lines in order); and when the cursor has fallen
below the bottom margin the loop finalizes the current page, starts a new
page with the cursor reset to the start height, and writes the triggering
line on the new page. -/
theorem c2_pagination (startY margin leading : Int) (hl : 0 < leading)
    (hm : margin ≤ startY) (hcap : 2 ≤ lineCap startY margin leading)
    (lines : List String) :
    (textPages startY margin leading lines).length
      = (lines.length + 2 + lineCap startY margin leading - 1)
          / lineCap startY margin leading ∧
    (textPages startY margin leading lines).flatten = headerLine :: "" :: lines ∧
    (∀ (st : FlowState) (line : String), st.y < margin →
      flowStep startY margin leading st line
        = ⟨st.pages ++ [st.cur], [line], startY - leading⟩) :=
  ⟨textPages_count startY margin leading hl hm hcap lines,
   textPages_flatten startY margin leading lines,
   fun st line h => by unfold flowStep; rw [if_pos h]⟩

set_option maxRecDepth 10000 in
/-- C2 witness: 100 extracted lines at the source geometry give
`ceil(102 / 49) = 3` text pages, with all lines preserved in order. -/
theorem c2_pagination_witness :
    (textPages pageStartY bottomMarginY fontLeading (List.replicate 100 "line")).length
      = ((List.replicate 100 "line").length + 2
          + lineCap pageStartY bottomMarginY fontLeading - 1)
        / lineCap pageStartY bottomMarginY fontLeading ∧
    (textPages pageStartY bottomMarginY fontLeading (List.replicate 100 "line")).flatten
      = headerLine :: "" :: List.replicate 100 "line" :=
  ⟨(c2_pagination pageStartY bottomMarginY fontLeading (by decide) (by decide)
      (by decide) (List.replicate 100 "line")).1,
   (c2_pagination pageStartY bottomMarginY fontLeading (by decide) (by decide)
      (by decide) (List.replicate 100 "line")).2.1⟩

/-- C4: the search returns the best text together with its provenance, the
variant label and config of the winning candidate as reported by the
diagnostic message of lines 75-76 (the last such message names the
winner). In particular, when the engine call on the binary variant under
the single-line config `--oem 1 --psm 7` yields a trimmed text strictly
longer than every other successful combination (and non-empty, so it also
beats failed combinations), the provenance is exactly
`("binary", "--oem 1 --psm 7")` and the best text is that candidate
stripped. -/
theorem c4_provenance {α : Type} [DecidableEq α] (ocr : α → String → Option String)
    (e b : α) (t : String) (hne : e ≠ b)
    (ht : ocr b "--oem 1 --psm 7" = some t)
    (hpos : 0 < (pyStrip t).length)
    (hmax : ∀ p ∈ searchGrid e b, p ≠ (b, "--oem 1 --psm 7") →
      ∀ u, ocr p.1 p.2 = some u → (pyStrip u).length < (pyStrip t).length) :
    searchBest ocr e b = (pyStrip t, some ("binary", "--oem 1 --psm 7")) := by
  have hgrid : searchGrid e b
      = ([(e, "--oem 1 --psm 6"), (e, "--oem 1 --psm 3"), (e, "--oem 1 --psm 4"),
          (e, "--oem 1 --psm 7"), (e, "--oem 1 --psm 8"), (e, "--oem 1 --psm 11"),
          (e, "--oem 1 --psm 12"), (b, "--oem 1 --psm 6"), (b, "--oem 1 --psm 3"),
          (b, "--oem 1 --psm 4")]
        ++ (b, "--oem 1 --psm 7")
          :: [(b, "--oem 1 --psm 8"), (b, "--oem 1 --psm 11"), (b, "--oem 1 --psm 12")]) := rfl
  have hfrontlt : (List.foldl (searchFold ocr b) ("", none)
      [(e, "--oem 1 --psm 6"), (e, "--oem 1 --psm 3"), (e, "--oem 1 --psm 4"),
       (e, "--oem 1 --psm 7"), (e, "--oem 1 --psm 8"), (e, "--oem 1 --psm 11"),
       (e, "--oem 1 --psm 12"), (b, "--oem 1 --psm 6"), (b, "--oem 1 --psm 3"),
       (b, "--oem 1 --psm 4")]).1.length < (pyStrip t).length := by
    apply foldl_lt ocr b (pyStrip t).length _ ("", none) hpos
    intro p hp u hu
    have hpmem : p ∈ searchGrid e b := by
      rw [hgrid]
      exact List.mem_append_left _ hp
    have hpne : p ≠ (b, "--oem 1 --psm 7") := by
      simp only [List.mem_cons, List.not_mem_nil, or_false] at hp
      rcases hp with rfl | rfl | rfl | rfl | rfl | rfl | rfl | rfl | rfl | rfl
      · intro hcons; exact hne (congrArg Prod.fst hcons)
      · intro hcons; exact hne (congrArg Prod.fst hcons)
      · intro hcons; exact hne (congrArg Prod.fst hcons)
      · intro hcons; exact hne (congrArg Prod.fst hcons)
      · intro hcons; exact hne (congrArg Prod.fst hcons)
      · intro hcons; exact hne (congrArg Prod.fst hcons)
      · intro hcons; exact hne (congrArg Prod.fst hcons)
      · intro hcons
        exact (by decide : ("--oem 1 --psm 6" : String) ≠ "--oem 1 --psm 7")
          (congrArg Prod.snd hcons)
      · intro hcons
        exact (by decide : ("--oem 1 --psm 3" : String) ≠ "--oem 1 --psm 7")
          (congrArg Prod.snd hcons)
      · intro hcons
        exact (by decide : ("--oem 1 --psm 4" : String) ≠ "--oem 1 --psm 7")
          (congrArg Prod.snd hcons)
    exact hmax p hpmem hpne u hu
  have hwin : searchFold ocr b (List.foldl (searchFold ocr b) ("", none)
      [(e, "--oem 1 --psm 6"), (e, "--oem 1 --psm 3"), (e, "--oem 1 --psm 4"),
       (e, "--oem 1 --psm 7"), (e, "--oem 1 --psm 8"), (e, "--oem 1 --psm 11"),
       (e, "--oem 1 --psm 12"), (b, "--oem 1 --psm 6"), (b, "--oem 1 --psm 3"),
       (b, "--oem 1 --psm 4")]) (b, "--oem 1 --psm 7")
      = (pyStrip t, some ("binary", "--oem 1 --psm 7")) := by
    rw [searchFold_eq, ocrStep_some ocr b _ b "--oem 1 --psm 7" t ht, if_pos hfrontlt]
    unfold imgLabel
    rw [if_pos rfl]
  unfold searchBest
  rw [hgrid, List.foldl_append, List.foldl_cons, hwin]
  apply foldl_keep
  intro p hp u hu
  have hpmem : p ∈ searchGrid e b := by
    rw [hgrid]
    exact List.mem_append_right _ (List.mem_cons_of_mem _ hp)
  have hpne : p ≠ (b, "--oem 1 --psm 7") := by
    simp only [List.mem_cons, List.not_mem_nil, or_false] at hp
    rcases hp with rfl | rfl | rfl
    · intro hcons
      exact (by decide : ("--oem 1 --psm 8" : String) ≠ "--oem 1 --psm 7")
        (congrArg Prod.snd hcons)
    · intro hcons
      exact (by decide : ("--oem 1 --psm 11" : String) ≠ "--oem 1 --psm 7")
        (congrArg Prod.snd hcons)
    · intro hcons
      exact (by decide : ("--oem 1 --psm 12" : String) ≠ "--oem 1 --psm 7")
        (congrArg Prod.snd hcons)
  exact le_of_lt (hmax p hpmem hpne u hu)

/-- C4 witness: an engine recognizing text only on the binary variant
under `--psm 7`; the provenance names exactly that combination. -/
theorem c4_provenance_witness :
    searchBest winOcr false true
      = (pyStrip " winner text ", some ("binary", "--oem 1 --psm 7")) :=
  c4_provenance winOcr false true " winner text " (by decide) rfl (by decide)
    (by
      intro p hp hpn u hu
      fin_cases hp
      · exact Option.noConfusion hu
      · exact Option.noConfusion hu
      · exact Option.noConfusion hu
      · exact Option.noConfusion hu
      · exact Option.noConfusion hu
      · exact Option.noConfusion hu
      · exact Option.noConfusion hu
      · exact Option.noConfusion hu
      · exact Option.noConfusion hu
      · exact Option.noConfusion hu
      · exact absurd rfl hpn
      · exact Option.noConfusion hu
      · exact Option.noConfusion hu
      · exact Option.noConfusion hu)
